import Mathlib

/-!
Shallow embedding of the frame/tick timekeeping module `src/i_time.cpp`.

The C++ state is a triple of process-wide `uint64_t` globals
(`FirstFrameStartTime`, `CurrentFrameStartTime`, `FreezeTime`); we model it as
a `ClockState` record of natural numbers, with `uint64_t` wraparound made
explicit (`% 2^64`, the helper `sub64` for unsigned subtraction) and the
`static_cast<int>` / `static_cast<uint32_t>` narrowing conversions made
explicit (`toInt32`, reduction `% 2^32`).  Every call to the live monotonic
clock `GetClockTimeNS()` is modelled by an explicit nanosecond argument, one
per read the C++ function performs, so a simulated clock source is just the
sequence of those arguments.  The busy-wait loop `I_WaitForTic` is modelled
with explicit fuel and the list of clock readings consumed by its successive
`I_SetFrameTime` calls; the milliseconds it passes to `sleep_for` are
returned as a list so that "performs no sleep" is expressible.
-/

namespace ITime

/-- Modelled from the spec: the simulation tic rate constant `TICRATE` comes
from `doomdef.h`, which is not part of the sources under verification; the
spec fixes it as a process-wide constant and its worked examples use
35 tics per second. -/
def TICRATE : Nat := 35

/-- Unsigned 64-bit subtraction `a - b` (wraparound semantics of `uint64_t`). -/
def sub64 (a b : Nat) : Nat :=
  (a + (2 ^ 64 - b % 2 ^ 64)) % 2 ^ 64

/-- `static_cast<int>` of an unsigned 64-bit value: reduce modulo `2^32` and
reinterpret as a signed 32-bit two's-complement integer. -/
def toInt32 (n : Nat) : Int :=
  if n % 2 ^ 32 < 2 ^ 31 then (n % 2 ^ 32 : Nat) else (n % 2 ^ 32 : Nat) - 2 ^ 32

/-- `static_cast<uint64_t>` of an `int` value: reduce modulo `2^64`. -/
def toUInt64i (i : Int) : Nat :=
  (i % (2 ^ 64 : Int)).toNat

/-- `NSToMS`: nanoseconds to milliseconds, truncating division, then the
`static_cast<uint32_t>` narrowing. -/
def NSToMS (ns : Nat) : Nat :=
  ns / 1000000 % 2 ^ 32

/-- `NSToTic`: `static_cast<int>(ns * TICRATE / 1'000'000'000)`; the product
is computed in `uint64_t` (hence `% 2^64`) before the division and the
narrowing cast. -/
def NSToTic (ns : Nat) : Int :=
  toInt32 (ns * TICRATE % 2 ^ 64 / 1000000000)

/-- `TicToNS`: `static_cast<uint64_t>(tic) * 1'000'000'000 / TICRATE`, all in
`uint64_t` arithmetic. -/
def TicToNS (tic : Int) : Nat :=
  toUInt64i tic * 1000000000 % 2 ^ 64 / TICRATE

/-- The three process-wide globals of `i_time.cpp`. -/
structure ClockState where
  FirstFrameStartTime : Nat
  CurrentFrameStartTime : Nat
  FreezeTime : Nat
deriving DecidableEq, Repr

/-- The all-zero startup state. -/
def initState : ClockState := ⟨0, 0, 0⟩

/-- `I_SetFrameTime` (the spec's `SnapshotFrameTime`): when not frozen, store
the live clock reading `now` as `CurrentFrameStartTime`, and initialize
`FirstFrameStartTime` to it if still unset; when frozen, do nothing. -/
def I_SetFrameTime (now : Nat) (s : ClockState) : ClockState :=
  if s.FreezeTime = 0 then
    let s1 : ClockState := { s with CurrentFrameStartTime := now }
    if s1.FirstFrameStartTime = 0 then
      { s1 with FirstFrameStartTime := s1.CurrentFrameStartTime }
    else s1
  else s

/-- `I_GetTime` (the spec's `CurrentTic`):
`NSToTic(CurrentFrameStartTime - FirstFrameStartTime) + 1`. -/
def I_GetTime (s : ClockState) : Int :=
  NSToTic (sub64 s.CurrentFrameStartTime s.FirstFrameStartTime) + 1

/-- `I_NSTime` (the spec's `ElapsedNanos`); `now` is the value a
`GetClockTimeNS()` call would return (only read on the frozen paths).  The
frozen path with `FirstFrameStartTime == 0` mutates the state, so the result
is the returned value paired with the successor state. -/
def I_NSTime (now : Nat) (s : ClockState) : Nat × ClockState :=
  if s.FreezeTime = 0 then
    (sub64 s.CurrentFrameStartTime s.FirstFrameStartTime, s)
  else if s.FirstFrameStartTime = 0 then
    (0, { s with FirstFrameStartTime := now })
  else
    (sub64 now s.FirstFrameStartTime, s)

/-- `I_FPSTimeNS` (the spec's `FPSTimeNanos`): the cached frame start when not
frozen, else a fresh live clock read. -/
def I_FPSTimeNS (now : Nat) (s : ClockState) : Nat :=
  if s.FreezeTime = 0 then s.CurrentFrameStartTime else now

/-- `I_MSTime` (the spec's `MillisNow`): `NSToMS(I_NSTime())`, threading the
state through `I_NSTime`. -/
def I_MSTime (now : Nat) (s : ClockState) : Nat × ClockState :=
  let r := I_NSTime now s
  (NSToMS r.1, r.2)

/-- `I_FPSTime` (the spec's `FPSMillis`): `NSToMS(I_FPSTimeNS())`. -/
def I_FPSTime (now : Nat) (s : ClockState) : Nat :=
  NSToMS (I_FPSTimeNS now s)

/-- `I_GetTimeFrac` (the spec's `FractionalTic`): computes the 0-based tic,
the `uint64_t` boundaries of that tic and the next, writes `currentTic + 1`
to the `uint32_t` output slot, and divides the two `uint64_t` differences.
The C++ division is performed in `double`; both operands are far below
`2^53` in every regime the theorems below consider, so they are exactly
representable and the correctly rounded quotient of a real value within
`[0, 1]` remains within `[0, 1]`; we model the quotient by the exact rational
value. -/
def I_GetTimeFrac (s : ClockState) : ℚ × Nat :=
  let currentTic : Int := NSToTic (sub64 s.CurrentFrameStartTime s.FirstFrameStartTime)
  let ticStartTime : Nat := (s.FirstFrameStartTime + TicToNS currentTic) % 2 ^ 64
  let ticNextTime : Nat := (s.FirstFrameStartTime + TicToNS (currentTic + 1)) % 2 ^ 64
  ((sub64 s.CurrentFrameStartTime ticStartTime : ℚ) / (sub64 ticNextTime ticStartTime : ℚ),
    ((currentTic + 1) % (2 ^ 32 : Int)).toNat)

/-- `I_FreezeTime` (the spec's `FreezeTime`): on `true`, record a live clock
read (`now1`) into `FreezeTime`; on `false`, advance `FirstFrameStartTime` by
`now1 - FreezeTime` (in `uint64_t` arithmetic), clear `FreezeTime`, then call
`I_SetFrameTime`, whose own clock read is `now2`. -/
def I_FreezeTime (frozen : Bool) (now1 now2 : Nat) (s : ClockState) : ClockState :=
  if frozen then
    { s with FreezeTime := now1 }
  else
    I_SetFrameTime now2
      { s with
          FirstFrameStartTime := (s.FirstFrameStartTime + sub64 now1 s.FreezeTime) % 2 ^ 64,
          FreezeTime := 0 }

/-- `I_WaitVBL` (the spec's `WaitFixedInterval`): sleep `1000 * count / 70`
milliseconds (C `int` division truncates toward zero), then snapshot the
frame time.  Returned as the slept milliseconds paired with the new state. -/
def I_WaitVBL (count : Int) (now : Nat) (s : ClockState) : Int × ClockState :=
  (Int.tdiv (1000 * count) 70, I_SetFrameTime now s)

/-- `I_WaitForTic` (the spec's `WaitForTic`): the
`while ((time = I_GetTime()) <= prevtic)` loop, with explicit fuel, the list
`ts` of clock readings consumed by the successive `I_SetFrameTime` calls, and
the list of millisecond durations passed to `sleep_for` accumulated in the
result.  `none` means the fuel or the modelled clock readings ran out. -/
def I_WaitForTic : Nat → List Nat → Int → ClockState → Option (Int × ClockState × List Int)
  | 0, _, _, _ => none
  | fuel + 1, ts, prevtic, s =>
    if prevtic < I_GetTime s then
      some (I_GetTime s, s, [])
    else
      match ts with
      | [] => none
      | t :: rest =>
        let sleepTime : Int := prevtic - I_GetTime s
        let sleeps : List Int := if 2 < sleepTime then [sleepTime - 2] else []
        (I_WaitForTic fuel rest prevtic (I_SetFrameTime t s)).map
          (fun r => (r.1, r.2.1, sleeps ++ r.2.2))

/-- The sequence of `I_GetTime` values as successive frame snapshots are
taken: one entry per clock reading in `ts`, each observed right after the
corresponding `I_SetFrameTime`. -/
def ticTrace : List Nat → ClockState → List Int
  | [], _ => []
  | t :: rest, s =>
    let s1 := I_SetFrameTime t s
    I_GetTime s1 :: ticTrace rest s1

/-- The `I_GetTime` values a run of `I_WaitForTic` observes: the value in the
entry state, then the value after each snapshot. -/
def observedTics (ts : List Nat) (s : ClockState) : List Int :=
  I_GetTime s :: ticTrace ts s

/-- The clock-history invariant of a live (monotonic-clock) run once the
first frame is recorded: the first-frame epoch is set, is at or before the
current frame snapshot, and, while frozen, at or before the freeze
timestamp. -/
def GoodState (s : ClockState) : Prop :=
  0 < s.FirstFrameStartTime ∧ s.FirstFrameStartTime ≤ s.CurrentFrameStartTime ∧
    (s.FreezeTime ≠ 0 → s.FirstFrameStartTime ≤ s.FreezeTime)

instance (s : ClockState) : Decidable (GoodState s) :=
  inferInstanceAs (Decidable (0 < s.FirstFrameStartTime ∧
    s.FirstFrameStartTime ≤ s.CurrentFrameStartTime ∧
    (s.FreezeTime ≠ 0 → s.FirstFrameStartTime ≤ s.FreezeTime)))

/-! ### Arithmetic helper lemmas -/

theorem sub64_eq {a b : Nat} (hba : b ≤ a) (ha : a < 2 ^ 64) : sub64 a b = a - b := by
  have hb : b % 2 ^ 64 = b := Nat.mod_eq_of_lt (lt_of_le_of_lt hba ha)
  unfold sub64
  rw [hb]
  have h1 : a + (2 ^ 64 - b) = (a - b) + 2 ^ 64 := by omega
  rw [h1, Nat.add_mod_right, Nat.mod_eq_of_lt (by omega)]

theorem toInt32_of_lt {n : Nat} (h : n < 2 ^ 31) : toInt32 n = n := by
  have h32 : n % 2 ^ 32 = n := Nat.mod_eq_of_lt (by omega)
  unfold toInt32
  rw [h32, if_pos h]

theorem NSToTic_eq {ns : Nat} (h : ns * TICRATE < 2 ^ 31 * 1000000000) :
    NSToTic ns = (ns * TICRATE / 1000000000 : Nat) := by
  have h64 : ns * TICRATE % 2 ^ 64 = ns * TICRATE :=
    Nat.mod_eq_of_lt (lt_trans h (by norm_num))
  have hq : ns * TICRATE / 1000000000 < 2 ^ 31 :=
    Nat.div_lt_of_lt_mul (by omega)
  unfold NSToTic
  rw [h64, toInt32_of_lt hq]

theorem NSToTic_mono {d1 d2 : Nat} (h12 : d1 ≤ d2)
    (h : d2 * TICRATE < 2 ^ 31 * 1000000000) : NSToTic d1 ≤ NSToTic d2 := by
  have h1 : d1 * TICRATE ≤ d2 * TICRATE := Nat.mul_le_mul_right _ h12
  rw [NSToTic_eq (lt_of_le_of_lt h1 h), NSToTic_eq h]
  exact_mod_cast Nat.div_le_div_right h1

theorem TicToNS_natCast {k : Nat} (h : k * 1000000000 < 2 ^ 64) :
    TicToNS (k : Int) = k * 1000000000 / TICRATE := by
  have hklt : k < 2 ^ 64 := lt_of_le_of_lt (Nat.le_mul_of_pos_right k (by norm_num)) h
  have hk : (k : Int) % (2 ^ 64 : Int) = k :=
    Int.emod_eq_of_lt (by positivity) (by exact_mod_cast hklt)
  unfold TicToNS toUInt64i
  rw [hk]
  simp only [Int.toNat_natCast]
  rw [Nat.mod_eq_of_lt h]

/-- `I_SetFrameTime` on an unfrozen state whose first-frame epoch is set. -/
theorem setFrameTime_set {f c : Nat} (hf : 0 < f) (t : Nat) :
    I_SetFrameTime t ⟨f, c, 0⟩ = ⟨f, t, 0⟩ := by
  have hf' : f ≠ 0 := Nat.pos_iff_ne_zero.mp hf
  unfold I_SetFrameTime
  simp [hf']

/-- `I_NSTime` on an unfrozen state returns the cached elapsed time. -/
theorem nsTime_unfrozen_val (now f c : Nat) (hfc : f ≤ c) (hc : c < 2 ^ 64) :
    (I_NSTime now ⟨f, c, 0⟩).1 = c - f :=
  sub64_eq hfc hc

/-- `I_GetTime` on an unfrozen-style state, rewritten through the `uint64_t`
subtraction. -/
theorem getTime_state {f c z : Nat} (hfc : f ≤ c) (hc : c < 2 ^ 64) :
    I_GetTime ⟨f, c, z⟩ = NSToTic (c - f) + 1 := by
  unfold I_GetTime
  rw [show (ClockState.mk f c z).CurrentFrameStartTime = c from rfl,
    show (ClockState.mk f c z).FirstFrameStartTime = f from rfl, sub64_eq hfc hc]

/-! ### Claim theorems -/

/-- C7: for every state in which `FreezeTime` is non-zero, `I_SetFrameTime`
(the spec's `SnapshotFrameTime`) leaves all three state fields —
`FirstFrameStartTime`, `CurrentFrameStartTime`, `FreezeTime` — unchanged. -/
theorem setFrameTime_frozen_noop (now : Nat) (s : ClockState)
    (h : s.FreezeTime ≠ 0) : I_SetFrameTime now s = s := by
  unfold I_SetFrameTime
  rw [if_neg h]

/-- Witness for C7 at the concrete frozen state `⟨1, 2, 3⟩`. -/
theorem setFrameTime_frozen_noop_witness :
    (ClockState.mk 1 2 3).FreezeTime ≠ 0 ∧
      I_SetFrameTime 999 ⟨1, 2, 3⟩ = ⟨1, 2, 3⟩ :=
  ⟨by decide, setFrameTime_frozen_noop 999 ⟨1, 2, 3⟩ (by decide)⟩

/-- C9: for every state (and every live clock reading), `I_MSTime` (the
spec's `MillisNow`) is `I_NSTime` floor-divided by `1,000,000` and reduced
modulo `2^32`, with the same successor state, and `I_FPSTime` (the spec's
`FPSMillis`) is `I_FPSTimeNS` floor-divided by `1,000,000` and reduced
modulo `2^32`. -/
theorem msTime_floor_div :
    (∀ now s, I_MSTime now s = ((I_NSTime now s).1 / 1000000 % 2 ^ 32, (I_NSTime now s).2)) ∧
      (∀ now s, I_FPSTime now s = I_FPSTimeNS now s / 1000000 % 2 ^ 32) ∧
      (∀ ns, NSToMS ns = ns / 1000000 % 2 ^ 32) :=
  ⟨fun _ _ => rfl, fun _ _ => rfl, fun _ => rfl⟩

/-- C10: calling `I_FreezeTime false` on a state that is not frozen
(`FreezeTime = 0`) adds the full live clock reading `now1` to
`FirstFrameStartTime` (the `+=` sees `now1 - 0`), then snapshots the frame
time; when the clock reading is positive this moves the first-frame epoch,
so a mismatched unfreeze is not a no-op. -/
theorem unfreeze_unfrozen_shifts_epoch (s : ClockState) (now1 now2 : Nat)
    (h0 : s.FreezeTime = 0) (hf : 0 < s.FirstFrameStartTime)
    (hb : s.FirstFrameStartTime + now1 < 2 ^ 64) :
    I_FreezeTime false now1 now2 s = ⟨s.FirstFrameStartTime + now1, now2, 0⟩ ∧
      (0 < now1 →
        (I_FreezeTime false now1 now2 s).FirstFrameStartTime ≠ s.FirstFrameStartTime) := by
  have hn1 : now1 < 2 ^ 64 := by omega
  have hsub : sub64 now1 s.FreezeTime = now1 := by
    rw [h0, sub64_eq (Nat.zero_le _) hn1, Nat.sub_zero]
  have hstep : I_FreezeTime false now1 now2 s = ⟨s.FirstFrameStartTime + now1, now2, 0⟩ := by
    unfold I_FreezeTime I_SetFrameTime
    simp only [Bool.false_eq_true, if_false, hsub, Nat.mod_eq_of_lt hb]
    have hne : s.FirstFrameStartTime + now1 ≠ 0 := by omega
    simp [hne]
  refine ⟨hstep, fun hpos => ?_⟩
  rw [hstep]
  simp only [ne_eq]
  omega

/-- Witness for C10 at the unfrozen state `⟨5, 10, 0⟩` with clock readings
`10` and `10`: the epoch jumps from 5 to 15. -/
theorem unfreeze_unfrozen_shifts_epoch_witness :
    I_FreezeTime false 10 10 ⟨5, 10, 0⟩ = ⟨5 + 10, 10, 0⟩ ∧
      (0 < 10 → (I_FreezeTime false 10 10 ⟨5, 10, 0⟩).FirstFrameStartTime ≠ 5) :=
  unfreeze_unfrozen_shifts_epoch ⟨5, 10, 0⟩ 10 10 (by decide) (by decide) (by decide)

/-- C3: in a run that is frozen at live clock time `t1` (at state
`⟨f, c, 0⟩`) and unfrozen at live clock times `t2` (the read inside
`I_FreezeTime`) and `t2'` (the read inside the `I_SetFrameTime` it then
performs), the unfreeze advances `FirstFrameStartTime` by exactly `t2 - t1`,
clears `FreezeTime`, and snapshots `t2'`; the elapsed nanoseconds after the
unfreeze equal the elapsed nanoseconds before the freeze plus only the
sub-frame lags `t1 - c` and `t2' - t2` — the frozen interval itself is
excised. -/
theorem freeze_unfreeze_excises (f c t1 t2 t2' : Nat) (hf : 0 < f)
    (hfc : f ≤ c) (hct1 : c ≤ t1) (ht12 : t1 ≤ t2) (ht22 : t2 ≤ t2')
    (hb : t2' < 2 ^ 64) :
    I_FreezeTime true t1 0 ⟨f, c, 0⟩ = ⟨f, c, t1⟩ ∧
      I_FreezeTime false t2 t2' ⟨f, c, t1⟩ = ⟨f + (t2 - t1), t2', 0⟩ ∧
      (I_NSTime 0 (I_FreezeTime false t2 t2' ⟨f, c, t1⟩)).1
        = (I_NSTime 0 (⟨f, c, 0⟩ : ClockState)).1 + (t1 - c) + (t2' - t2) := by
  have hfreeze : I_FreezeTime true t1 0 ⟨f, c, 0⟩ = ⟨f, c, t1⟩ := rfl
  have ht1lt : t1 < 2 ^ 64 := by omega
  have hsub : sub64 t2 t1 = t2 - t1 := sub64_eq ht12 (by omega)
  have hsum : f + (t2 - t1) < 2 ^ 64 := by omega
  have hunfreeze : I_FreezeTime false t2 t2' ⟨f, c, t1⟩ = ⟨f + (t2 - t1), t2', 0⟩ := by
    unfold I_FreezeTime
    simp only [Bool.false_eq_true, if_false]
    rw [hsub, Nat.mod_eq_of_lt hsum]
    exact setFrameTime_set (by omega) t2'
  refine ⟨hfreeze, hunfreeze, ?_⟩
  rw [hunfreeze, nsTime_unfrozen_val 0 (f + (t2 - t1)) t2' (by omega) hb,
    nsTime_unfrozen_val 0 f c hfc (by omega)]
  omega

/-- Witness for C3: freeze `⟨100, 200, 0⟩` at clock 300, unfreeze with clock
reads 1000 and 1000. -/
theorem freeze_unfreeze_excises_witness :
    I_FreezeTime true 300 0 ⟨100, 200, 0⟩ = ⟨100, 200, 300⟩ ∧
      I_FreezeTime false 1000 1000 ⟨100, 200, 300⟩ = ⟨100 + (1000 - 300), 1000, 0⟩ ∧
      (I_NSTime 0 (I_FreezeTime false 1000 1000 ⟨100, 200, 300⟩)).1
        = (I_NSTime 0 (⟨100, 200, 0⟩ : ClockState)).1 + (300 - 200) + (1000 - 1000) :=
  freeze_unfreeze_excises 100 200 300 1000 1000 (by decide) (by decide) (by decide)
    (by decide) (by decide) (by decide)

/-- C5: `I_NSTime` (the spec's `ElapsedNanos`): when not frozen it returns
`CurrentFrameStartTime - FirstFrameStartTime` and leaves the state unchanged
(so repeated calls between snapshots return the same value, whatever the live
clock does); when frozen with `FirstFrameStartTime = 0` it stores the live
clock read into `FirstFrameStartTime` and returns 0; when frozen with
`FirstFrameStartTime` already set it returns `now - FirstFrameStartTime`. -/
theorem nsTime_cases (now : Nat) (s : ClockState) :
    (s.FreezeTime = 0 → s.FirstFrameStartTime ≤ s.CurrentFrameStartTime →
      s.CurrentFrameStartTime < 2 ^ 64 →
      I_NSTime now s = (s.CurrentFrameStartTime - s.FirstFrameStartTime, s)) ∧
    (s.FreezeTime = 0 → ∀ now2,
      (I_NSTime now2 (I_NSTime now s).2).1 = (I_NSTime now s).1) ∧
    (s.FreezeTime ≠ 0 → s.FirstFrameStartTime = 0 →
      I_NSTime now s = (0, { s with FirstFrameStartTime := now })) ∧
    (s.FreezeTime ≠ 0 → s.FirstFrameStartTime ≠ 0 →
      s.FirstFrameStartTime ≤ now → now < 2 ^ 64 →
      I_NSTime now s = (now - s.FirstFrameStartTime, s)) := by
  refine ⟨fun h0 hle hlt => ?_, fun h0 now2 => ?_, fun hz hf0 => ?_, fun hz hf0 hle hlt => ?_⟩
  · unfold I_NSTime
    rw [if_pos h0, sub64_eq hle hlt]
  · unfold I_NSTime
    rw [if_pos h0]
    simp only
    rw [if_pos h0]
  · unfold I_NSTime
    rw [if_neg hz, if_pos hf0]
  · unfold I_NSTime
    rw [if_neg hz, if_neg hf0, sub64_eq hle hlt]

/-- Witness for C5: all three branches at concrete states, with the stability
conjunct evaluated as well. -/
theorem nsTime_cases_witness :
    I_NSTime 100 ⟨3, 10, 0⟩ = (10 - 3, ⟨3, 10, 0⟩) ∧
      (I_NSTime 77 (I_NSTime 100 ⟨3, 10, 0⟩).2).1 = (I_NSTime 100 ⟨3, 10, 0⟩).1 ∧
      I_NSTime 100 ⟨0, 10, 5⟩ = (0, ⟨100, 10, 5⟩) ∧
      I_NSTime 100 ⟨3, 10, 5⟩ = (100 - 3, ⟨3, 10, 5⟩) :=
  ⟨(nsTime_cases 100 ⟨3, 10, 0⟩).1 (by decide) (by decide) (by decide),
    (nsTime_cases 100 ⟨3, 10, 0⟩).2.1 (by decide) 77,
    (nsTime_cases 100 ⟨0, 10, 5⟩).2.2.1 (by decide) (by decide),
    (nsTime_cases 100 ⟨3, 10, 5⟩).2.2.2 (by decide) (by decide) (by decide) (by decide)⟩

/-- C1 (amended): for every state that is not frozen, with the first-frame
epoch at or before the current frame snapshot and the elapsed time below the
`int32` tic-overflow threshold, `I_GetTime` (the spec's `CurrentTic`) returns
`floor((CurrentFrameStartTime - FirstFrameStartTime) * TICRATE / 10^9) + 1`. -/
theorem currentTic_floor_formula (s : ClockState) (hfreeze : s.FreezeTime = 0)
    (hfc : s.FirstFrameStartTime ≤ s.CurrentFrameStartTime)
    (hc : s.CurrentFrameStartTime < 2 ^ 64)
    (hb : (s.CurrentFrameStartTime - s.FirstFrameStartTime) * TICRATE
      < 2 ^ 31 * 1000000000) :
    I_GetTime s
      = ((s.CurrentFrameStartTime - s.FirstFrameStartTime) * TICRATE / 1000000000 : Nat)
        + 1 := by
  obtain ⟨f, c, z⟩ := s
  rw [getTime_state hfc hc, NSToTic_eq hb]

/-- Witness for C1 at tic rate 35: zero elapsed time gives tic 1 (the very
first snapshot), elapsed 28,571,429 ns (the true tic-1 boundary, `⌈10^9/35⌉`)
gives tic 2, and elapsed 57,142,857 ns still gives tic 2. -/
theorem currentTic_floor_formula_witness :
    I_GetTime ⟨5, 5, 0⟩ = 1 ∧ I_GetTime ⟨1, 28571430, 0⟩ = 2 ∧
      I_GetTime ⟨1, 57142858, 0⟩ = 2 :=
  ⟨(by rw [currentTic_floor_formula ⟨5, 5, 0⟩ rfl (by decide) (by decide) (by decide)]; decide),
    (by rw [currentTic_floor_formula ⟨1, 28571430, 0⟩ rfl (by decide) (by decide) (by decide)]
        decide),
    (by rw [currentTic_floor_formula ⟨1, 57142858, 0⟩ rfl (by decide) (by decide) (by decide)]
        decide)⟩

/-- Counterexample for C1 as stated: the claim asserts that a snapshot
28,571,428 ns after the first frame yields tic 2, but
`28,571,428 * 35 = 999,999,980 < 10^9`, so the code computes tic index 0 and
`I_GetTime` returns 1 — the tic-2 region only starts at 28,571,429 ns. -/
theorem currentTic_spec_example_false :
    (28571429 : Nat) - 1 = 28571428 ∧ I_GetTime ⟨1, 28571429, 0⟩ = 1 ∧ (1 : Int) ≠ 2 := by
  refine ⟨rfl, ?_, by decide⟩
  decide

/-- C2 (amended): for every state with `FirstFrameStartTime ≤
CurrentFrameStartTime`, the current frame time at least `10^9` below the
`uint64_t` range, and the elapsed time below the `int32` tic-overflow
threshold, `I_GetTimeFrac` (the spec's `FractionalTic`) returns a fraction in
the closed interval `[0, 1]`, and the `uint32_t` written to the output slot
equals the value `I_GetTime` returns on the same state.  (The value 1 is
attained: see the counterexample theorem; the spec's half-open `[0, 1)` is
off exactly at those boundary-collision states.) -/
theorem timeFrac_bounds_outTic (s : ClockState)
    (hfc : s.FirstFrameStartTime ≤ s.CurrentFrameStartTime)
    (hc : s.CurrentFrameStartTime + 1000000000 < 2 ^ 64)
    (hb : (s.CurrentFrameStartTime - s.FirstFrameStartTime) * TICRATE
      < 2 ^ 31 * 1000000000) :
    0 ≤ (I_GetTimeFrac s).1 ∧ (I_GetTimeFrac s).1 ≤ 1 ∧
      ((I_GetTimeFrac s).2 : Int) = I_GetTime s := by
  obtain ⟨f, c, z⟩ := s
  simp only at hfc hc hb
  have hsubcf : sub64 c f = c - f := sub64_eq hfc (by omega)
  have htic := NSToTic_eq hb
  simp only [TICRATE] at htic
  have hb35 : (c - f) * 35 < 2 ^ 31 * 1000000000 := by
    simpa [TICRATE] using hb
  obtain ⟨k, hk⟩ : ∃ k : Nat, k = (c - f) * 35 / 1000000000 := ⟨_, rfl⟩
  have htick : NSToTic (c - f) = (k : Int) := by
    rw [htic, hk]
  have hklt : k < 2 ^ 31 := by omega
  have hk64 : k * 1000000000 < 2 ^ 64 := by omega
  have hk164 : (k + 1) * 1000000000 < 2 ^ 64 := by omega
  obtain ⟨Tk, hTk⟩ : ∃ T : Nat, T = k * 1000000000 / 35 := ⟨_, rfl⟩
  obtain ⟨Tk1, hTk1⟩ : ∃ T : Nat, T = (k + 1) * 1000000000 / 35 := ⟨_, rfl⟩
  have hTkNS : TicToNS (k : Int) = Tk := by
    have h := TicToNS_natCast hk64
    simp only [TICRATE] at h
    rw [h, hTk]
  have hTk1NS : TicToNS ((k : Int) + 1) = Tk1 := by
    have hcast : ((k : Int) + 1) = ((k + 1 : Nat) : Int) := by push_cast; ring
    have h := TicToNS_natCast hk164
    simp only [TICRATE] at h
    rw [hcast, h, hTk1]
  have hTk_le_d : Tk ≤ c - f := by omega
  have hd_le_Tk1 : c - f ≤ Tk1 := by omega
  have hTk_lt_Tk1 : Tk < Tk1 := by omega
  have hTk1_le : Tk1 ≤ (c - f) + 1000000000 := by omega
  have hmod1 : (f + Tk) % 2 ^ 64 = f + Tk := Nat.mod_eq_of_lt (by omega)
  have hmod2 : (f + Tk1) % 2 ^ 64 = f + Tk1 := Nat.mod_eq_of_lt (by omega)
  have hsub1 : sub64 c (f + Tk) = (c - f) - Tk := by
    rw [sub64_eq (by omega) (by omega)]
    omega
  have hsub2 : sub64 (f + Tk1) (f + Tk) = Tk1 - Tk := by
    rw [sub64_eq (by omega) (by omega)]
    omega
  have hms : (((k : Int) + 1) % (2 ^ 32 : Int)).toNat = k + 1 := by
    have h1 : ((k : Int) + 1) % (2 ^ 32 : Int) = (k : Int) + 1 :=
      Int.emod_eq_of_lt (by positivity) (by exact_mod_cast (by omega : k + 1 < 2 ^ 32))
    rw [h1]
    exact_mod_cast Int.toNat_natCast (k + 1)
  have hfrac : I_GetTimeFrac ⟨f, c, z⟩
      = ((((c - f) - Tk : Nat) : ℚ) / ((Tk1 - Tk : Nat) : ℚ), k + 1) := by
    unfold I_GetTimeFrac
    simp only [hsubcf, htick, hTkNS, hTk1NS, hmod1, hmod2, hsub1, hsub2, hms]
  rw [hfrac]
  refine ⟨by positivity, ?_, ?_⟩
  · have hdenom : (0 : ℚ) < ((Tk1 - Tk : Nat) : ℚ) := by
      exact_mod_cast Nat.sub_pos_of_lt hTk_lt_Tk1
    rw [div_le_one hdenom]
    exact_mod_cast Nat.sub_le_sub_right hd_le_Tk1 Tk
  · rw [getTime_state hfc (by omega), htick]
    push_cast
    ring

/-- Witness for C2 at the state `⟨1, 20000001, 0⟩` (elapsed 20,000,000 ns,
inside tic 0). -/
theorem timeFrac_bounds_outTic_witness :
    0 ≤ (I_GetTimeFrac ⟨1, 20000001, 0⟩).1 ∧ (I_GetTimeFrac ⟨1, 20000001, 0⟩).1 ≤ 1 ∧
      ((I_GetTimeFrac ⟨1, 20000001, 0⟩).2 : Int) = I_GetTime ⟨1, 20000001, 0⟩ :=
  timeFrac_bounds_outTic ⟨1, 20000001, 0⟩ (by decide) (by decide) (by decide)

/-- Counterexample for C2 as stated: at elapsed time 142,857,142 ns (with
`FirstFrameStartTime ≤ CurrentFrameStartTime`) the floored next-tic boundary
`TicToNS(5) = ⌊5·10^9/35⌋ = 142,857,142` coincides with the elapsed time, so
the fraction is exactly `28,571,428 / 28,571,428 = 1`, outside the claimed
half-open interval `[0, 1)`. -/
theorem timeFrac_reaches_one :
    (1 : Nat) ≤ 142857143 ∧ ¬((I_GetTimeFrac ⟨1, 142857143, 0⟩).1 < 1) := by
  have h1 : (I_GetTimeFrac ⟨1, 142857143, 0⟩).1 = 1 := by
    unfold I_GetTimeFrac NSToTic TicToNS toInt32 toUInt64i sub64 TICRATE
    norm_num [show Int.toNat 4 = 4 from rfl, show Int.toNat 5 = 5 from rfl]
  exact ⟨by norm_num, by rw [h1]; exact lt_irrefl 1⟩

/-- Chain step for the tic trace: once the first-frame epoch `f` is set,
snapshots driven by a monotone clock within the `int32` tic range produce a
non-decreasing sequence of `I_GetTime` values. -/
theorem ticTrace_chain_aux (ts : List Nat) : ∀ f c : Nat, 0 < f → f ≤ c → c < 2 ^ 64 →
    List.Chain' (· ≤ ·) (c :: ts) → (∀ t ∈ ts, t < 2 ^ 64) →
    (∀ t ∈ ts, (t - f) * TICRATE < 2 ^ 31 * 1000000000) →
    (c - f) * TICRATE < 2 ^ 31 * 1000000000 →
    List.Chain' (· ≤ ·) (I_GetTime ⟨f, c, 0⟩ :: ticTrace ts ⟨f, c, 0⟩) := by
  induction ts with
  | nil =>
    intro f c _ _ _ _ _ _ _
    simp [ticTrace]
  | cons t rest ih =>
    intro f c hf hfc hc hchain hlt hbound hcb
    have hct : c ≤ t := (List.chain'_cons.mp hchain).1
    have ht64 : t < 2 ^ 64 := hlt t (List.mem_cons_self t rest)
    simp only [ticTrace, setFrameTime_set hf]
    refine List.chain'_cons.mpr ⟨?_, ?_⟩
    · rw [getTime_state hfc hc, getTime_state (le_trans hfc hct) ht64]
      have hmono := NSToTic_mono (show c - f ≤ t - f by omega)
        (hbound t (List.mem_cons_self t rest))
      omega
    · exact ih f t hf (le_trans hfc hct) ht64 (List.chain'_cons.mp hchain).2
        (fun u hu => hlt u (List.mem_cons_of_mem t hu))
        (fun u hu => hbound u (List.mem_cons_of_mem t hu))
        (hbound t (List.mem_cons_self t rest))

/-- C4 (amended): for every monotone (non-decreasing) sequence of simulated
clock readings whose pairwise spans stay below the `int32` tic-overflow
threshold, the `I_GetTime` (the spec's `CurrentTic`) values observed after
the successive `I_SetFrameTime` calls form a non-decreasing sequence. -/
theorem ticTrace_monotone (ts : List Nat) (hchain : List.Chain' (· ≤ ·) ts)
    (hlt : ∀ t ∈ ts, t < 2 ^ 64)
    (hbound : ∀ t ∈ ts, ∀ u ∈ ts, (t - u) * TICRATE < 2 ^ 31 * 1000000000) :
    List.Chain' (· ≤ ·) (ticTrace ts initState) := by
  induction ts with
  | nil => simp [ticTrace]
  | cons t rest ih =>
    by_cases ht : t = 0
    · subst ht
      have h0 : I_SetFrameTime 0 initState = initState := rfl
      have hrest := ih (List.chain'_cons'.mp hchain).2
        (fun u hu => hlt u (List.mem_cons_of_mem 0 hu))
        (fun u hu v hv =>
          hbound u (List.mem_cons_of_mem 0 hu) v (List.mem_cons_of_mem 0 hv))
      simp only [ticTrace, h0]
      cases rest with
      | nil => simp [ticTrace]
      | cons u r =>
        have hu64 : u < 2 ^ 64 := hlt u (List.mem_cons_of_mem 0 (List.mem_cons_self u r))
        have hu : I_SetFrameTime u initState = ⟨u, u, 0⟩ := by
          unfold I_SetFrameTime initState
          simp
        simp only [ticTrace, hu] at hrest ⊢
        refine List.chain'_cons.mpr ⟨?_, hrest⟩
        rw [getTime_state le_rfl hu64]
        simp [Nat.sub_self]
        decide
    · have hpos : 0 < t := Nat.pos_of_ne_zero ht
      have hst : I_SetFrameTime t initState = ⟨t, t, 0⟩ := by
        unfold I_SetFrameTime initState
        simp
      simp only [ticTrace, hst]
      exact ticTrace_chain_aux rest t t hpos le_rfl (hlt t (List.mem_cons_self t rest))
        hchain (fun u hu => hlt u (List.mem_cons_of_mem t hu))
        (fun u hu => hbound u (List.mem_cons_of_mem t hu) t (List.mem_cons_self t rest))
        (by simp)

/-- Witness for C4 on the monotone reading list `[1, 28571430]`: the tic
trace is non-decreasing. -/
theorem ticTrace_monotone_witness :
    List.Chain' (· ≤ ·) ([1, 28571430] : List Nat) ∧
      List.Chain' (· ≤ ·) (ticTrace [1, 28571430] initState) :=
  ⟨(by simp [List.chain'_cons]),
    ticTrace_monotone [1, 28571430] (by simp [List.chain'_cons]) (by decide) (by decide)⟩

/-- Counterexample for C4 as stated: for the monotone clock readings
`[1, 61356675657142859]` (span ≈ 710 days) the second elapsed time crosses
`2^31` tics, the `static_cast<int>` in `NSToTic` wraps to `-2^31`, and the
observed tic sequence `[1, -2147483647]` is decreasing. -/
theorem ticTrace_not_monotone_overflow :
    List.Chain' (· ≤ ·) ([1, 61356675657142859] : List Nat) ∧
      ¬ List.Chain' (· ≤ ·) (ticTrace [1, 61356675657142859] initState) := by
  refine ⟨(by simp [List.chain'_cons]), ?_⟩
  have htrace : ticTrace [1, 61356675657142859] initState = [1, -2147483647] := by
    decide
  intro hchain
  rw [htrace] at hchain
  have h12 := (List.chain'_cons.mp hchain).1
  exact absurd h12 (by norm_num)

/-- If the current tic already exceeds the target, `I_WaitForTic` exits on
its first test: no sleep, no snapshot, same state. -/
theorem waitForTic_exit (fuel : Nat) (ts : List Nat) (p : Int) (s : ClockState)
    (h : p < I_GetTime s) :
    I_WaitForTic (fuel + 1) ts p s = some (I_GetTime s, s, []) := by
  simp only [I_WaitForTic]
  rw [if_pos h]

/-- Whenever `I_WaitForTic` returns a value, that value is the first entry of
the observed tic sequence that strictly exceeds the target. -/
theorem waitForTic_find (fuel : Nat) : ∀ (ts : List Nat) (p : Int) (s : ClockState)
    (v : Int) (s1 : ClockState) (sl : List Int),
    I_WaitForTic fuel ts p s = some (v, s1, sl) →
    List.find? (fun x => decide (p < x)) (observedTics ts s) = some v := by
  induction fuel with
  | zero =>
    intro ts p s v s1 sl h
    simp [I_WaitForTic] at h
  | succ fuel ih =>
    intro ts p s v s1 sl h
    simp only [I_WaitForTic] at h
    by_cases hgt : p < I_GetTime s
    · rw [if_pos hgt] at h
      obtain ⟨hv, _, _⟩ := Prod.mk.injEq .. ▸ Option.some.inj h
      unfold observedTics
      rw [List.find?_cons_of_pos _ (by simpa using hgt), hv]
    · rw [if_neg hgt] at h
      cases ts with
      | nil => simp at h
      | cons t rest =>
        simp only [Option.map_eq_some'] at h
        obtain ⟨⟨v', s1', sl'⟩, hr, heq⟩ := h
        have hv : v' = v := congrArg Prod.fst heq
        unfold observedTics
        rw [List.find?_cons_of_neg _ (by simpa using hgt)]
        have hfind := ih rest p (I_SetFrameTime t s) v' s1' sl' hr
        unfold observedTics at hfind
        simpa only [ticTrace, hv] using hfind

/-- If some modelled clock reading drives the tic strictly past the target
and there is enough fuel, `I_WaitForTic` terminates with a value. -/
theorem waitForTic_total (fuel : Nat) : ∀ (ts : List Nat) (p : Int) (f c : Nat), 0 < f →
    ts.length < fuel → (∃ t ∈ ts, p < I_GetTime ⟨f, t, 0⟩) →
    (I_WaitForTic fuel ts p ⟨f, c, 0⟩).isSome = true := by
  induction fuel with
  | zero =>
    intro ts p f c _ hlen _
    omega
  | succ fuel ih =>
    intro ts p f c hf hlen hex
    simp only [I_WaitForTic]
    by_cases hgt : p < I_GetTime ⟨f, c, 0⟩
    · rw [if_pos hgt]
      rfl
    · rw [if_neg hgt]
      obtain ⟨t, ht, hpt⟩ := hex
      cases ts with
      | nil => cases ht
      | cons t0 rest =>
        simp only [List.length_cons] at hlen
        simp only [setFrameTime_set hf, Option.isSome_map']
        rcases List.mem_cons.mp ht with rfl | htr
        · obtain ⟨fuel', rfl⟩ : ∃ fuel', fuel = fuel' + 1 := ⟨fuel - 1, by omega⟩
          rw [waitForTic_exit fuel' rest p ⟨f, t, 0⟩ hpt]
          rfl
        · exact ih rest p f t0 hf (by omega) ⟨t, htr, hpt⟩

/-- C6: `I_WaitForTic` (the spec's `WaitForTic`): (1) called when the current
tic already exceeds the target it returns that tic immediately — same state
(no frame snapshot) and an empty sleep list; (2) whenever it returns, the
returned tic is the first observed `I_GetTime` value strictly greater than
the target; (3) with a clock that eventually advances past the target (and
fuel covering the readings) it does return. -/
theorem waitForTic_first_exceeding :
    (∀ (fuel : Nat) (ts : List Nat) (p : Int) (s : ClockState), p < I_GetTime s →
        I_WaitForTic (fuel + 1) ts p s = some (I_GetTime s, s, [])) ∧
      (∀ (fuel : Nat) (ts : List Nat) (p : Int) (s : ClockState) v s1 sl,
        I_WaitForTic fuel ts p s = some (v, s1, sl) →
        List.find? (fun x => decide (p < x)) (observedTics ts s) = some v) ∧
      (∀ (fuel : Nat) (ts : List Nat) (p : Int) (f c : Nat), 0 < f →
        ts.length < fuel → (∃ t ∈ ts, p < I_GetTime ⟨f, t, 0⟩) →
        (I_WaitForTic fuel ts p ⟨f, c, 0⟩).isSome = true) :=
  ⟨waitForTic_exit, fun fuel => waitForTic_find fuel, fun fuel => waitForTic_total fuel⟩

/-- Witness for C6: at state `⟨1, 100000000, 0⟩` the current tic is 4 > 2, so
the wait returns `(4, same state, no sleeps)` at once; the first-exceeding
characterization and the termination conjunct evaluated on small inputs. -/
theorem waitForTic_first_exceeding_witness :
    (2 : Int) < I_GetTime ⟨1, 100000000, 0⟩ ∧
      I_WaitForTic 5 [] 2 ⟨1, 100000000, 0⟩
        = some (I_GetTime ⟨1, 100000000, 0⟩, ⟨1, 100000000, 0⟩, []) ∧
      List.find? (fun x => decide ((2 : Int) < x)) (observedTics [] ⟨1, 100000000, 0⟩)
        = some 4 ∧
      (I_WaitForTic 2 [50000000] 1 ⟨1, 1, 0⟩).isSome = true :=
  ⟨(by decide),
    waitForTic_first_exceeding.1 4 [] 2 ⟨1, 100000000, 0⟩ (by decide),
    waitForTic_first_exceeding.2.1 5 [] 2 ⟨1, 100000000, 0⟩ 4 ⟨1, 100000000, 0⟩ []
      (by decide),
    waitForTic_first_exceeding.2.2 2 [50000000] 1 1 1 (by decide) (by decide)
      ⟨50000000, (by decide), (by decide)⟩⟩

/-- A frame snapshot driven by a clock reading at or after the current frame
preserves the clock-history invariant. -/
theorem setFrameTime_good {s : ClockState} (hs : GoodState s) {t : Nat}
    (ht : s.CurrentFrameStartTime ≤ t) : GoodState (I_SetFrameTime t s) := by
  obtain ⟨hf, hfc, hfr⟩ := hs
  by_cases hz : s.FreezeTime = 0
  · unfold I_SetFrameTime
    rw [if_pos hz]
    have hf0 : ¬ (s.FirstFrameStartTime = 0) := by omega
    simp only [hf0, if_false]
    exact ⟨hf, le_trans hfc ht, fun hcon => absurd hz hcon⟩
  · unfold I_SetFrameTime
    rw [if_neg hz]
    exact ⟨hf, hfc, hfr⟩

/-- The wait loop's final state satisfies the clock-history invariant when
its clock readings are monotone and start at or after the current frame. -/
theorem waitForTic_preserves (fuel : Nat) : ∀ (ts : List Nat) (p : Int) (s : ClockState)
    (v : Int) (s1 : ClockState) (sl : List Int), GoodState s →
    (∀ t ∈ ts, s.CurrentFrameStartTime ≤ t) → List.Pairwise (· ≤ ·) ts →
    I_WaitForTic fuel ts p s = some (v, s1, sl) → GoodState s1 := by
  induction fuel with
  | zero =>
    intro ts p s v s1 sl _ _ _ h
    simp [I_WaitForTic] at h
  | succ fuel ih =>
    intro ts p s v s1 sl hs hts hpw h
    simp only [I_WaitForTic] at h
    by_cases hgt : p < I_GetTime s
    · rw [if_pos hgt] at h
      have hs1 : s1 = s := (congrArg (fun r => r.2.1) (Option.some.inj h)).symm
      rw [hs1]
      exact hs
    · rw [if_neg hgt] at h
      cases ts with
      | nil => simp at h
      | cons t rest =>
        simp only [Option.map_eq_some'] at h
        obtain ⟨⟨v', s1', sl'⟩, hr, heq⟩ := h
        have hs1 : s1' = s1 := congrArg (fun r => r.2.1) heq
        have hgood : GoodState (I_SetFrameTime t s) :=
          setFrameTime_good hs (hts t (List.mem_cons_self t rest))
        have hcur : ∀ u ∈ rest, (I_SetFrameTime t s).CurrentFrameStartTime ≤ u := by
          intro u hu
          by_cases hz : s.FreezeTime = 0
          · have hct : (I_SetFrameTime t s).CurrentFrameStartTime = t := by
              unfold I_SetFrameTime
              rw [if_pos hz]
              dsimp only
              split <;> rfl
            rw [hct]
            exact (List.pairwise_cons.mp hpw).1 u hu
          · have hct : I_SetFrameTime t s = s := by
              unfold I_SetFrameTime
              rw [if_neg hz]
            rw [hct]
            exact hts u (List.mem_cons_of_mem t hu)
        have hres := ih rest p (I_SetFrameTime t s) v' s1' sl' hgood hcur
          (List.pairwise_cons.mp hpw).2 hr
        rwa [hs1] at hres

/-- C8 (amended): from any state satisfying the clock-history invariant
(both timestamps set, `FirstFrameStartTime ≤ CurrentFrameStartTime`, and a
freeze timestamp no earlier than the epoch), every operation executed with
monotone live clock readings preserves `FirstFrameStartTime ≤
CurrentFrameStartTime` — with `I_FreezeTime false` restricted to frozen
states; applied to a non-frozen state it can break the invariant (see the
counterexample theorem and C10). -/
theorem ops_preserve_invariant (s : ClockState) (hs : GoodState s) :
    (∀ now, s.CurrentFrameStartTime ≤ now → GoodState (I_SetFrameTime now s)) ∧
      (∀ now, GoodState (I_NSTime now s).2) ∧
      (∀ now, GoodState (I_MSTime now s).2) ∧
      (∀ now1 now2, s.CurrentFrameStartTime ≤ now1 →
        GoodState (I_FreezeTime true now1 now2 s)) ∧
      (∀ now1 now2, s.FreezeTime ≠ 0 → s.FreezeTime ≤ now1 → now1 ≤ now2 →
        now2 < 2 ^ 64 → GoodState (I_FreezeTime false now1 now2 s)) ∧
      (∀ count now, s.CurrentFrameStartTime ≤ now → GoodState (I_WaitVBL count now s).2) ∧
      (∀ fuel ts p v s1 sl, (∀ t ∈ ts, s.CurrentFrameStartTime ≤ t) →
        List.Pairwise (· ≤ ·) ts → I_WaitForTic fuel ts p s = some (v, s1, sl) →
        GoodState s1) := by
  obtain ⟨hf, hfc, hfr⟩ := hs
  have hs' : GoodState s := ⟨hf, hfc, hfr⟩
  have hns : ∀ now, GoodState (I_NSTime now s).2 := by
    intro now
    unfold I_NSTime
    by_cases hz : s.FreezeTime = 0
    · rw [if_pos hz]
      exact hs'
    · rw [if_neg hz, if_neg (by omega : ¬ s.FirstFrameStartTime = 0)]
      exact hs'
  refine ⟨fun now h => setFrameTime_good hs' h, hns, fun now => hns now, ?_, ?_,
    fun count now h => setFrameTime_good hs' h,
    fun fuel ts p v s1 sl hts hpw h => waitForTic_preserves fuel ts p s v s1 sl hs' hts hpw h⟩
  · intro now1 now2 h
    show GoodState { s with FreezeTime := now1 }
    exact ⟨hf, hfc, fun _ => le_trans hfc h⟩
  · intro now1 now2 hz hn1 h12 hn2
    have hffr : s.FirstFrameStartTime ≤ s.FreezeTime := hfr hz
    have hsub : sub64 now1 s.FreezeTime = now1 - s.FreezeTime := sub64_eq hn1 (by omega)
    have hmod : (s.FirstFrameStartTime + (now1 - s.FreezeTime)) % 2 ^ 64
        = s.FirstFrameStartTime + (now1 - s.FreezeTime) := Nat.mod_eq_of_lt (by omega)
    show GoodState (I_SetFrameTime now2
      { s with
          FirstFrameStartTime := (s.FirstFrameStartTime + sub64 now1 s.FreezeTime) % 2 ^ 64,
          FreezeTime := 0 })
    rw [hsub, hmod, setFrameTime_set (by omega)]
    refine ⟨?_, ?_, fun hcon => absurd rfl hcon⟩
    · show 0 < s.FirstFrameStartTime + (now1 - s.FreezeTime)
      omega
    · show s.FirstFrameStartTime + (now1 - s.FreezeTime) ≤ now2
      omega

/-- Witness for C8 at the concrete states `⟨1, 2, 0⟩` (unfrozen) and
`⟨1, 2, 3⟩` (frozen), with monotone clock readings. -/
theorem ops_preserve_invariant_witness :
    GoodState ⟨1, 2, 0⟩ ∧ GoodState (I_SetFrameTime 5 ⟨1, 2, 0⟩) ∧
      GoodState (I_NSTime 7 ⟨1, 2, 0⟩).2 ∧ GoodState (I_MSTime 7 ⟨1, 2, 0⟩).2 ∧
      GoodState (I_FreezeTime true 3 0 ⟨1, 2, 0⟩) ∧
      GoodState (I_FreezeTime false 7 8 ⟨1, 2, 3⟩) ∧
      GoodState (I_WaitVBL 70 5 ⟨1, 2, 0⟩).2 ∧ GoodState ⟨1, 2, 0⟩ :=
  ⟨(by decide),
    (ops_preserve_invariant ⟨1, 2, 0⟩ (by decide)).1 5 (by decide),
    (ops_preserve_invariant ⟨1, 2, 0⟩ (by decide)).2.1 7,
    (ops_preserve_invariant ⟨1, 2, 0⟩ (by decide)).2.2.1 7,
    (ops_preserve_invariant ⟨1, 2, 0⟩ (by decide)).2.2.2.1 3 0 (by decide),
    (ops_preserve_invariant ⟨1, 2, 3⟩ (by decide)).2.2.2.2.1 7 8 (by decide) (by decide)
      (by decide) (by decide),
    (ops_preserve_invariant ⟨1, 2, 0⟩ (by decide)).2.2.2.2.2.1 70 5 (by decide),
    (ops_preserve_invariant ⟨1, 2, 0⟩ (by decide)).2.2.2.2.2.2 1 [] 0 1 ⟨1, 2, 0⟩ []
      (by simp) (List.Pairwise.nil) (by decide)⟩

/-- Counterexample for C8 as stated: `I_FreezeTime false` applied to the
non-frozen state `⟨5, 10, 0⟩` with monotone clock readings `10, 10` yields
`⟨15, 10, 0⟩`, violating `FirstFrameStartTime ≤ CurrentFrameStartTime` even
though the input state satisfied it with both fields set. -/
theorem unfreeze_unfrozen_breaks_invariant :
    GoodState ⟨5, 10, 0⟩ ∧
      ¬ ((I_FreezeTime false 10 10 ⟨5, 10, 0⟩).FirstFrameStartTime
          ≤ (I_FreezeTime false 10 10 ⟨5, 10, 0⟩).CurrentFrameStartTime) := by
  refine ⟨(by decide), (by decide)⟩

end ITime
